import Mathlib

/-!
Verification development for the konnektaro-ai transcription service.

The definitions below are a shallow embedding of the TypeScript source:
`src/services/whisperService.ts` (class WhisperService: preprocessAudio,
getFileHash, getCachedTranscription, saveCachedTranscription, transcribe)
and `src/controllers/transcriptionController.ts` (transcribeAudio).
External effects (the file system, the ffmpeg and whisper subprocesses,
`Date.now()`, cache-write success) are made explicit: the file system is a
map from paths to optional contents, and each external interaction's
outcome is supplied by an oracle record, so that one run of `transcribe`
is a pure function of the oracle and the starting state.
-/

namespace KonnektaroAI

/-- JSON values as produced by `JSON.parse` and consumed by
`JSON.stringify`: only the fragment the cache files use (strings, numbers,
flat objects). -/
inductive Json where
  | str (s : String)
  | num (n : Int)
  | obj (fields : List (String × Json))

/-- The `TranscriptionResult` interface of `whisperService.ts`: transcribed
text, model identifier, language, processing time (a `Date.now()` value). -/
structure TranscriptionResult where
  text : String
  model : String
  language : String
  processingTime : Int
  deriving DecidableEq

/-- Field lookup on a parsed JSON value, as JS property access on the
object returned by `JSON.parse`. -/
def Json.getField (j : Json) (k : String) : Option Json :=
  match j with
  | .obj fields => fields.lookup k
  | _ => none

/-- The effect of `JSON.stringify(result, null, 2)` at the level of the JSON value: the
object literal built at whisperService.ts:199-204, with its four fields in
source order. -/
def TranscriptionResult.toJson (r : TranscriptionResult) : Json :=
  .obj [("text", .str r.text), ("model", .str r.model),
        ("language", .str r.language), ("processingTime", .num r.processingTime)]

/-- Reading the four fields of a parsed cache entry back into a
`TranscriptionResult`; `none` when the parsed value does not have the
shape `saveCachedTranscription` writes. -/
def TranscriptionResult.fromJson? (j : Json) : Option TranscriptionResult :=
  match j.getField "text", j.getField "model", j.getField "language",
        j.getField "processingTime" with
  | some (.str t), some (.str m), some (.str l), some (.num p) =>
      some ⟨t, m, l, p⟩
  | _, _, _, _ => none

theorem fromJson_toJson (r : TranscriptionResult) :
    TranscriptionResult.fromJson? r.toJson = some r := rfl

/-! Section: File system model -/

/-- The file system visible to the service: a map from paths to optional
file contents (`none` = `fs.existsSync` is false). -/
def FS := String → Option String

/-- Model of `fs.writeFileSync` / a subprocess writing a file. -/
def FS.write (fs : FS) (p c : String) : FS :=
  fun q => if q == p then some c else fs q

/-- Model of `fs.unlinkSync`. -/
def FS.erase (fs : FS) (p : String) : FS :=
  fun q => if q == p then none else fs q

theorem FS.write_self (fs : FS) (p c : String) : FS.write fs p c p = some c := by
  simp [FS.write]

theorem FS.erase_self (fs : FS) (p : String) : FS.erase fs p p = none := by
  simp [FS.erase]

/-- A subprocess that may or may not have produced an output file at `p`
before it exited: the file system after the run. -/
def writeIfProduced (fs : FS) (p : String) (produced : Option String) : FS :=
  match produced with
  | some c => FS.write fs p c
  | none => fs

/-! Section: Path helpers (Node `path` module and the JS regex replace) -/

/-- The portion of a path after the last `/`, as Node `path.basename`
computes it for file paths. -/
def lastComponent (p : String) : String :=
  ⟨(p.data.reverse.takeWhile (fun c => c != '/')).reverse⟩

/-- Node `path.extname`: the substring from the last `.` of the last path
component to the end, empty when there is no `.` or the `.` is the first
character of the component. -/
def extname (p : String) : String :=
  match (lastComponent p).data.reverse.dropWhile (fun c => c != '.') with
  | '.' :: _ :: _ =>
      ⟨'.' :: ((lastComponent p).data.reverse.takeWhile (fun c => c != '.')).reverse⟩
  | _ => ""

/-- Node `path.basename(p, path.extname(p))`: the last component with its
extension (when present and proper) stripped, as at
whisperService.ts:183. -/
def basenameNoExt (p : String) : String :=
  if (extname p).data.length != 0 &&
     (extname p).data.isSuffixOf (lastComponent p).data &&
     decide ((extname p).data.length < (lastComponent p).data.length) then
    ⟨(lastComponent p).data.take ((lastComponent p).data.length - (extname p).data.length)⟩
  else lastComponent p

/-- JS whitespace for `String.prototype.trim` (the characters that occur
in practice in whisper text output). -/
def isJsWs (c : Char) : Bool :=
  c == ' ' || c == '\n' || c == '\t' || c == '\r'

/-- The `.trim()` call applied to the artifact text at whisperService.ts:187:
strips leading and trailing whitespace. -/
def trimWs (s : String) : String :=
  ⟨((s.data.dropWhile isJsWs).reverse.dropWhile isJsWs).reverse⟩

/-- The match of the JS regex `\.[^/.]+$` against a path: `some (stem, ext)`
when the path ends in a dot followed by one or more characters that are
neither `.` nor `/`; the stem is everything before that dot. -/
def dotExtSplit? (p : String) : Option (String × String) :=
  match p.data.reverse.dropWhile (fun c => c != '.' && c != '/') with
  | c :: stemRev =>
      if c == '.' && (p.data.reverse.takeWhile (fun c => c != '.' && c != '/')).length != 0
      then some (⟨stemRev.reverse⟩,
                 ⟨(p.data.reverse.takeWhile (fun c => c != '.' && c != '/')).reverse⟩)
      else none
  | [] => none

/-- The replace `inputPath.replace(/\.[^\/.]+$/, '_processed.wav')` at
whisperService.ts:35: replaces the final extension with `_processed.wav`,
and leaves the path unchanged when the regex does not match. -/
def replaceExtWithProcessed (p : String) : String :=
  match dotExtSplit? p with
  | some (stem, _) => stem ++ "_processed.wav"
  | none => p

theorem dotExtSplit_eq {p st e : String} (h : dotExtSplit? p = some (st, e)) :
    p.data = st.data ++ '.' :: e.data := by
  unfold dotExtSplit? at h
  cases hd : p.data.reverse.dropWhile (fun c => c != '.' && c != '/') with
  | nil => rw [hd] at h; simp at h
  | cons c rest =>
    rw [hd] at h
    simp only [] at h
    split at h
    · rename_i hcond
      have hc : c = '.' := by
        have := (Bool.and_eq_true _ _).mp hcond |>.1
        exact eq_of_beq this
      have hpair := Option.some.inj h
      have hst : (⟨rest.reverse⟩ : String) = st := congrArg Prod.fst hpair
      have hee : (⟨(p.data.reverse.takeWhile (fun c => c != '.' && c != '/')).reverse⟩ : String)
          = e := congrArg Prod.snd hpair
      subst hc
      have hsplit :
          p.data.reverse.takeWhile (fun c => c != '.' && c != '/') ++ ('.' :: rest)
            = p.data.reverse := by
        rw [← hd]
        exact List.takeWhile_append_dropWhile _ _
      have hp : p.data
          = (p.data.reverse.takeWhile (fun c => c != '.' && c != '/') ++ ('.' :: rest)).reverse := by
        rw [hsplit, List.reverse_reverse]
      rw [hp, ← hst, ← hee]
      simp [List.reverse_append]
    · simp at h

/-! Section: Cache (content-addressed result cache of WhisperService) -/

/-- The content of one cache file `<cacheDir>/<fileHash>.json`, as seen
through `JSON.parse`: either a value it parses to, or bytes on which it
throws. (A parsed value whose shape is not a serialized result is
modelled as absent when read back; `saveCachedTranscription` only ever
writes serialized results.) -/
inductive CacheContent where
  | parsed (j : Json)
  | unparseable

/-- The cache directory: a map from file hashes to optional cache-file
contents. -/
def Cache := String → Option CacheContent

/-- Method `WhisperService.getCachedTranscription` (whisperService.ts:95-107):
returns the parsed entry for the hash, and `null` when the file is absent
or `JSON.parse` throws (the catch block logs and falls through). -/
def getCachedTranscription (cache : Cache) (fileHash : String) : Option TranscriptionResult :=
  match cache fileHash with
  | some (.parsed j) => TranscriptionResult.fromJson? j
  | some .unparseable => none
  | none => none

/-- Method `WhisperService.saveCachedTranscription` (whisperService.ts:109-117):
writes `JSON.stringify(result)` to the hash's cache file; a failing
`writeFileSync` (modelled by `writeOk = false`) is caught and logged,
leaving the cache unchanged. -/
def saveCachedTranscription (writeOk : Bool) (cache : Cache) (fileHash : String)
    (result : TranscriptionResult) : Cache :=
  if writeOk then
    fun k => if k == fileHash then some (.parsed result.toJson) else cache k
  else cache

theorem getCached_save (cache : Cache) (k : String) (r : TranscriptionResult) :
    getCachedTranscription (saveCachedTranscription true cache k r) k = some r := by
  simp [getCachedTranscription, saveCachedTranscription, fromJson_toJson]

/-! Section: Audio preprocessing (WhisperService.preprocessAudio) -/

/-- The observable outcome of one ffmpeg run: either the process closed
with an exit code, possibly having written the derived output file first,
or `spawn` itself failed (the `error` event fired). -/
inductive FfmpegOutcome where
  | close (code : Int) (output : Option String)
  | spawnError

/-- Method `WhisperService.preprocessAudio` (whisperService.ts:33-74): derives
the output path by the regex replace, runs ffmpeg, and resolves with the
output path when the exit code is zero and the output file exists, and
with the original input path otherwise (including when ffmpeg cannot be
spawned). Every branch of the source calls `resolve`, so the settled
value is always `Except.ok`; the returned file system includes whatever
ffmpeg wrote. -/
def preprocessAudio (off : FfmpegOutcome) (fs : FS) (inputPath : String) :
    Except String String × FS :=
  match off with
  | .spawnError => (.ok inputPath, fs)
  | .close code output =>
      if code == 0 &&
         ((writeIfProduced fs (replaceExtWithProcessed inputPath) output)
            (replaceExtWithProcessed inputPath)).isSome
      then (.ok (replaceExtWithProcessed inputPath),
            writeIfProduced fs (replaceExtWithProcessed inputPath) output)
      else (.ok inputPath,
            writeIfProduced fs (replaceExtWithProcessed inputPath) output)

/-! Section: Recognition invocation (the whisper subprocess inside transcribe) -/

/-- The observable outcome of one whisper run: the process closed with an
exit code and captured stderr, possibly having written the output
artifact `<basename>.txt` first, or `spawn` itself failed with an error
message. -/
inductive WhisperOutcome where
  | close (code : Int) (stderr : String) (artifact : Option String)
  | spawnError (message : String)

/-- The output artifact path `path.join(outputDir, basename + '.txt')`
built at whisperService.ts:183-184. -/
def whisperTxtFile (outputDir finalAudioPath : String) : String :=
  outputDir ++ "/" ++ basenameNoExt finalAudioPath ++ ".txt"

/-- The two `// Clean up processed file if it was created` blocks
(whisperService.ts:194-197 and 218-220): delete `finalAudioPath` when it
differs from the original input and exists. -/
def cleanupProcessed (fs : FS) (audioFilePath finalAudioPath : String) : FS :=
  if finalAudioPath != audioFilePath && (fs finalAudioPath).isSome
  then FS.erase fs finalAudioPath else fs

/-- Static configuration `config.whisper` used by the service. -/
structure Config where
  model : String
  language : String
  outputDir : String

/-- The whisper `close`/`error` handlers inside `WhisperService.transcribe`
(whisperService.ts:180-229), as a function from the process outcome and
the file system to the settled transcription text (or rejection message)
and the file system after the handler ran:
on exit code zero with the artifact present, the artifact is read, trimmed,
and deleted, and the processed input is cleaned up; on exit code zero with
the artifact missing, rejects with a fixed message; on non-zero exit,
cleans up the processed input and rejects carrying stderr; on spawn
failure, rejects carrying the spawn error message. -/
def runWhisper (cfg : Config) (ow : WhisperOutcome) (fs : FS)
    (audioFilePath finalAudioPath : String) : Except String String × FS :=
  match ow with
  | .spawnError msg => (.error ("Failed to start Whisper: " ++ msg), fs)
  | .close code stderr artifact =>
      if code == 0 then
        match (writeIfProduced fs (whisperTxtFile cfg.outputDir finalAudioPath) artifact)
                (whisperTxtFile cfg.outputDir finalAudioPath) with
        | some t =>
            (.ok (trimWs t),
             cleanupProcessed
               (FS.erase
                 (writeIfProduced fs (whisperTxtFile cfg.outputDir finalAudioPath) artifact)
                 (whisperTxtFile cfg.outputDir finalAudioPath))
               audioFilePath finalAudioPath)
        | none =>
            (.error "Whisper output file not found",
             writeIfProduced fs (whisperTxtFile cfg.outputDir finalAudioPath) artifact)
      else
        (.error ("Whisper process failed: " ++ stderr),
         cleanupProcessed
           (writeIfProduced fs (whisperTxtFile cfg.outputDir finalAudioPath) artifact)
           audioFilePath finalAudioPath)

/-! Section: The orchestrator (WhisperService.transcribe) -/

/-- The mutable world one `transcribe` call touches: the file system and
the cache directory. -/
structure ServiceState where
  fs : FS
  cache : Cache

/-- Outcomes of the external interactions of one `transcribe` call:
the ffmpeg run, the whisper run, whether the cache `writeFileSync`
succeeds, and the `Date.now()` value read on success. -/
structure TranscribeOracle where
  ffmpeg : FfmpegOutcome
  whisper : WhisperOutcome
  cacheWriteOk : Bool
  now : Int

/-- What one `transcribe` call produced: the settled promise (result or
rejection message), the final state, and how many whisper subprocesses
were spawned (the invoker entry count used by the admission-bound and
cache-idempotence properties). -/
structure TranscribeRun where
  outcome : Except String TranscriptionResult
  state : ServiceState
  whisperInvocations : Nat

instance {ε α : Type} [DecidableEq ε] [DecidableEq α] : DecidableEq (Except ε α)
  | .error x, .error y =>
      if h : x = y then .isTrue (congrArg Except.error h)
      else .isFalse fun hc => h (Except.error.inj hc)
  | .error _, .ok _ => .isFalse fun hc => Except.noConfusion hc
  | .ok _, .error _ => .isFalse fun hc => Except.noConfusion hc
  | .ok x, .ok y =>
      if h : x = y then .isTrue (congrArg Except.ok h)
      else .isFalse fun hc => h (Except.ok.inj hc)

/-- The `finalAudioPath` computation at whisperService.ts:144. -/
def finalPath (audioFilePath processedAudioPath : String) : String :=
  if processedAudioPath != audioFilePath then processedAudioPath else audioFilePath

/-- Method `WhisperService.transcribe` (whisperService.ts:119-236), called by the
controller as `transcribe(audioFilePath, userId, language)`; the service
implementation declares only the path parameter, so the two extra
arguments are ignored (JS drops extra arguments). Steps: validate the
file exists (else the thrown error is caught and rejected as an audio
processing error); hash the raw bytes (`getFileHash` = md5 of the file
contents, the `md5` parameter standing for the digest function); return a
cache hit immediately; otherwise preprocess, spawn whisper on the final
path, and on success build the result from the trimmed artifact text and
the static config, cache it best-effort, and resolve. -/
def transcribe (cfg : Config) (md5 : String → String) (o : TranscribeOracle)
    (st : ServiceState) (audioFilePath userId language : String) : TranscribeRun :=
  match st.fs audioFilePath with
  | none => ⟨.error "Audio processing error: Audio file not found", st, 0⟩
  | some content =>
      match getCachedTranscription st.cache (md5 content) with
      | some cached => ⟨.ok cached, st, 0⟩
      | none =>
          match preprocessAudio o.ffmpeg st.fs audioFilePath with
          | (.error e, fs₁) =>
              ⟨.error ("Audio processing error: " ++ e), ⟨fs₁, st.cache⟩, 0⟩
          | (.ok processedAudioPath, fs₁) =>
              match runWhisper cfg o.whisper fs₁ audioFilePath
                      (finalPath audioFilePath processedAudioPath) with
              | (.ok transcription, fs₂) =>
                  ⟨.ok ⟨transcription, cfg.model, cfg.language, o.now⟩,
                   ⟨fs₂, saveCachedTranscription o.cacheWriteOk st.cache (md5 content)
                           ⟨transcription, cfg.model, cfg.language, o.now⟩⟩, 1⟩
              | (.error e, fs₂) => ⟨.error e, ⟨fs₂, st.cache⟩, 1⟩

/-! Section: Job admission controller -/

/-- Modelled from the spec: the Job Admission Controller of spec section
4.1 (`acquireSlot`/`releaseSlot`, `maxConcurrent` bound, FIFO wait queue).
This component is repository code not present under `src/`: the controller
there calls `whisperService.getQueueStatus()` and passes three arguments
to `transcribe`, but the service file under `src/` has neither, so the
admission state is modelled from the spec's words. `running` counts
currently running recognizer invocations, `queue` holds the jobs waiting
for a slot in arrival order. -/
structure AdmissionState where
  running : Nat
  queue : List Nat

/-- Modelled from the spec: `acquireSlot(jobId)` — if `running` is below
`maxConcurrent` the caller acquires immediately and `running` increments;
otherwise the caller is appended to the FIFO wait list. -/
def acquireSlot (maxConcurrent : Nat) (s : AdmissionState) (jobId : Nat) : AdmissionState :=
  if s.running < maxConcurrent then ⟨s.running + 1, s.queue⟩
  else ⟨s.running, s.queue ++ [jobId]⟩

/-- Modelled from the spec: `releaseSlot` — `running` decrements, and when
the wait list is non-empty the head waiter is granted the slot in the same
operation (`running` increments again); a release with nothing running is
a no-op. -/
def releaseSlot (s : AdmissionState) : AdmissionState :=
  if s.running = 0 then s
  else
    match s.queue with
    | [] => ⟨s.running - 1, []⟩
    | _ :: rest => ⟨s.running, rest⟩

/-- One step of the admission controller: an acquire by some job, or a
release by a finishing job. An interleaving of concurrent submissions is
an arbitrary sequence of such steps. -/
inductive AdmissionOp where
  | acquire (jobId : Nat)
  | release

def admissionStep (maxConcurrent : Nat) (s : AdmissionState) (op : AdmissionOp) :
    AdmissionState :=
  match op with
  | .acquire j => acquireSlot maxConcurrent s j
  | .release => releaseSlot s

/-- The admission state reached from the initial state (nothing running,
empty queue) by a sequence of acquire/release steps. -/
def admissionRun (maxConcurrent : Nat) (ops : List AdmissionOp) : AdmissionState :=
  ops.foldl (admissionStep maxConcurrent) ⟨0, []⟩

/-! Section: HTTP controller (TranscriptionController.transcribeAudio) -/

/-- The JSON body and status the controller sends, restricted to the
fields the error-taxonomy claims are about. -/
structure HttpResponse where
  status : Nat
  success : Bool
  error : Option String
  message : Option String
  code : Option String
  data : Option TranscriptionResult
  deriving DecidableEq

/-- Method `TranscriptionController.transcribeAudio`
(transcriptionController.ts:22-82), as a function from the uploaded file
(if any) and the settled service promise to the HTTP response: a missing
upload is a 400 with code `NO_FILE`; a resolved service call is a 200
success payload; any rejection lands in the catch block, a 500 with the
fixed code `TRANSCRIPTION_FAILED` and the error message in `message`.
(The controller also unlinks the uploaded file; that side effect is not
needed by the claims about the response shape.) -/
def transcribeAudio (file : Option String)
    (serviceOutcome : Except String TranscriptionResult) : HttpResponse :=
  match file with
  | none => ⟨400, false, some "No audio file uploaded", none, some "NO_FILE", none⟩
  | some _ =>
      match serviceOutcome with
      | .ok r => ⟨200, true, none, none, none, some r⟩
      | .error m =>
          ⟨500, false, some "Failed to process audio file", some m,
           some "TRANSCRIPTION_FAILED", none⟩

/-! Section: Concrete fixtures used by witnesses and counterexamples -/

/-- Sample static configuration: model `base`, language `en`, output
directory `out`. -/
def cfgW : Config := ⟨"base", "en", "out"⟩

/-- A digest function for concrete runs (the claims never depend on the
specifics of md5, only on it being a function of the file bytes). -/
def md5W : String → String := fun _ => "h1"

/-- A file system holding one uploaded file `a.mp3`. -/
def fsW : FS := fun p => if p == "a.mp3" then some "audio-bytes" else none

/-- Starting state: the one uploaded file, empty cache. -/
def stW : ServiceState := ⟨fsW, fun _ => none⟩

/-- Oracle for a run where ffmpeg succeeds (writes the processed file) and
whisper exits 0 without writing its output artifact. -/
def oLeakW : TranscribeOracle := ⟨.close 0 (some "pcm"), .close 0 "boom" none, true, 7⟩

/-- Oracle for a fully successful first run: ffmpeg unavailable (fallback
to the original file), whisper succeeds writing ` hello `. -/
def oFirstW : TranscribeOracle := ⟨.spawnError, .close 0 "" (some " hello "), true, 7⟩

/-- Oracle for a second run in which every external interaction would
fail; a cache hit never reaches any of them. -/
def oSecondW : TranscribeOracle := ⟨.spawnError, .spawnError "not installed", false, 99⟩

/-- Oracle for a run where whisper exits non-zero. -/
def oFailW : TranscribeOracle := ⟨.spawnError, .close 1 "bad model" none, true, 7⟩

/-- Oracle for a run where the whisper binary cannot be spawned. -/
def oLaunchW : TranscribeOracle := ⟨.spawnError, .spawnError "ENOENT", true, 7⟩

/-! Section: Shared characterization lemmas -/

/-- Every resolved `transcribe` call either served a cache hit (state
untouched, no whisper spawn) or ran whisper once and built the result
from the static config, caching it best-effort. -/
theorem transcribe_ok_cases (cfg : Config) (md5 : String → String)
    (o : TranscribeOracle) (st : ServiceState) (p u l : String)
    (r : TranscriptionResult) (st' : ServiceState) (n : Nat)
    (h : transcribe cfg md5 o st p u l = ⟨.ok r, st', n⟩) :
    ∃ c, st.fs p = some c ∧
      ((getCachedTranscription st.cache (md5 c) = some r ∧ st' = st ∧ n = 0) ∨
       (r.model = cfg.model ∧ r.language = cfg.language ∧ r.processingTime = o.now ∧
        st'.cache = saveCachedTranscription o.cacheWriteOk st.cache (md5 c) r ∧ n = 1)) := by
  unfold transcribe at h
  cases hfs : st.fs p with
  | none => rw [hfs] at h; simp at h
  | some c =>
    rw [hfs] at h
    simp only [] at h
    refine ⟨c, rfl, ?_⟩
    cases hc : getCachedTranscription st.cache (md5 c) with
    | some cached =>
      rw [hc] at h
      simp only [TranscribeRun.mk.injEq] at h
      obtain ⟨h₁, h₂, h₃⟩ := h
      exact Or.inl ⟨congrArg some (Except.ok.inj h₁), h₂.symm, h₃.symm⟩
    | none =>
      rw [hc] at h
      simp only [] at h
      rcases hpp : preprocessAudio o.ffmpeg st.fs p with ⟨pr, fs₁⟩
      rw [hpp] at h
      cases pr with
      | error e => simp at h
      | ok pp =>
        simp only [] at h
        rcases hrw : runWhisper cfg o.whisper fs₁ p (finalPath p pp) with ⟨wr, fs₂⟩
        rw [hrw] at h
        cases wr with
        | error e => simp at h
        | ok tr =>
          simp only [TranscribeRun.mk.injEq] at h
          obtain ⟨h₁, h₂, h₃⟩ := h
          have hr : r = ⟨tr, cfg.model, cfg.language, o.now⟩ := (Except.ok.inj h₁).symm
          refine Or.inr ⟨by rw [hr], by rw [hr], by rw [hr], ?_, h₃.symm⟩
          rw [← h₂, hr]

/-! Section: C1 -/

/-- Claim C1: at every state reachable by an arbitrary interleaving of
acquire and release operations, the number of simultaneously running
recognizer invocations is at most `maxConcurrent`: the running-count
bound is an invariant of the admission controller's step relation. -/
theorem admission_bound_invariant (maxConcurrent : Nat) (ops : List AdmissionOp) :
    (admissionRun maxConcurrent ops).running ≤ maxConcurrent := by
  suffices hstep : ∀ (s : AdmissionState), s.running ≤ maxConcurrent →
      (ops.foldl (admissionStep maxConcurrent) s).running ≤ maxConcurrent from
    hstep ⟨0, []⟩ (Nat.zero_le _)
  induction ops with
  | nil => intro s hs; exact hs
  | cons op rest ih =>
    intro s hs
    refine ih _ ?_
    cases op with
    | acquire j =>
      simp only [admissionStep, acquireSlot]
      split
      · next hlt => exact hlt
      · exact hs
    | release =>
      simp only [admissionStep, releaseSlot]
      split
      · exact hs
      · split
        · exact Nat.le_trans (Nat.sub_le _ _) hs
        · exact hs

/-! Section: C2 -/

/-- Claim C2 (code bug): an execution on which the preprocessed
intermediate file is not deleted: ffmpeg succeeds and produces
`a_processed.wav`, whisper exits 0 but writes no output artifact;
`transcribe` rejects, and the preprocessed file is still present in the
final state — the missing-artifact branch (and likewise the spawn-error
handler) has no cleanup, contradicting the cleanup-completeness
invariant. -/
theorem preprocessed_file_leak_on_missing_artifact :
    (transcribe cfgW md5W oLeakW stW "a.mp3" "u" "en").outcome
        = .error "Whisper output file not found" ∧
    (transcribe cfgW md5W oLeakW stW "a.mp3" "u" "en").state.fs "a_processed.wav"
        = some "pcm" := by
  exact ⟨by decide, by decide⟩

/-! Section: C3 -/

/-- Claim C3: byte-identical content transcribes idempotently — if a
first `transcribe` call on content `c` resolved with result `r` and its
cache write persisted, then a second call on a file with the same bytes
(under any oracle, any user/language arguments) returns the identical
result `r` immediately, with the state untouched and zero whisper
invocations: the md5 fingerprint of the raw bytes is computed before
preprocessing, so the second call hits the entry the first wrote. -/
theorem cache_idempotence_second_call (cfg : Config) (md5 : String → String)
    (o₁ o₂ : TranscribeOracle) (st₁ st₂ : ServiceState)
    (p₁ p₂ u₁ l₁ u₂ l₂ c : String) (r : TranscriptionResult) (n₁ : Nat)
    (hf₁ : st₁.fs p₁ = some c)
    (hw : o₁.cacheWriteOk = true)
    (h₁ : transcribe cfg md5 o₁ st₁ p₁ u₁ l₁ = ⟨.ok r, st₂, n₁⟩)
    (hf₂ : st₂.fs p₂ = some c) :
    transcribe cfg md5 o₂ st₂ p₂ u₂ l₂ = ⟨.ok r, st₂, 0⟩ := by
  have hget : getCachedTranscription st₂.cache (md5 c) = some r := by
    obtain ⟨c', hfs', hcase⟩ := transcribe_ok_cases cfg md5 o₁ st₁ p₁ u₁ l₁ r st₂ n₁ h₁
    have hcc : c' = c := Option.some.inj (hfs'.symm.trans hf₁)
    subst hcc
    rcases hcase with ⟨hhit, hst, _⟩ | ⟨_, _, _, hcache, _⟩
    · rw [hst]; exact hhit
    · rw [hcache, hw]; exact getCached_save _ _ _
  unfold transcribe
  rw [hf₂]
  simp only []
  rw [hget]

/-- The state after the concrete successful first run of `transcribe` on
`a.mp3`. -/
def run1W : TranscribeRun := transcribe cfgW md5W oFirstW stW "a.mp3" "u1" "en"

theorem cache_idempotence_second_call_witness :
    transcribe cfgW md5W oSecondW run1W.state "a.mp3" "u2" "fr"
      = ⟨.ok ⟨"hello", "base", "en", 7⟩, run1W.state, 0⟩ :=
  cache_idempotence_second_call cfgW md5W oFirstW oSecondW stW run1W.state
    "a.mp3" "a.mp3" "u1" "en" "u2" "fr" "audio-bytes" ⟨"hello", "base", "en", 7⟩
    run1W.whisperInvocations rfl rfl rfl rfl

/-! Section: C4 -/

/-- Whether `needle` occurs as a contiguous substring of `hay` ("the error
carries the captured standard-error text"). -/
def containsSubstring (hay needle : List Char) : Bool :=
  match hay with
  | [] => needle.isEmpty
  | _ :: t => needle.isPrefixOf hay || containsSubstring t needle

/-- Claim C4 counterexample: on exit code zero with the output artifact
missing, `transcribe`'s recognition step fails with the fixed message
`Whisper output file not found`, which does not carry the captured
stderr (`boom`) — refuting the claim that every failing case carries the
standard-error text in the error. -/
theorem missing_artifact_error_lacks_stderr :
    (runWhisper cfgW (.close 0 "boom" none) (fun _ => none) "a.mp3" "a.mp3").1
        = .error "Whisper output file not found" ∧
    containsSubstring "Whisper output file not found".data "boom".data = false ∧
    "boom" ≠ "" := by
  refine ⟨by decide, by decide, by decide⟩

theorem cleanupProcessed_none (fs : FS) (a f q : String) (hq : fs q = none) :
    cleanupProcessed fs a f q = none := by
  unfold cleanupProcessed
  split
  · unfold FS.erase; split
    · rfl
    · exact hq
  · exact hq

/-- Claim C4 as amended: the recognition invocation succeeds iff the
process exits zero and the artifact `<basename>.txt` exists in the output
directory, in which case the result is the artifact content trimmed and
the artifact is deleted; on non-zero exit the error carries the captured
stderr; on exit zero with the artifact missing the error is the fixed
message `Whisper output file not found` (stderr is not attached); on
failure to launch, the error carries the spawn error message (not
stderr). -/
theorem runWhisper_outcome_cases (cfg : Config) (fs : FS) (ap fp : String)
    (code : Int) (stderr : String) (art : Option String) :
    (∀ t, code = 0 →
        (writeIfProduced fs (whisperTxtFile cfg.outputDir fp) art)
            (whisperTxtFile cfg.outputDir fp) = some t →
        (runWhisper cfg (.close code stderr art) fs ap fp).1 = .ok (trimWs t) ∧
        (runWhisper cfg (.close code stderr art) fs ap fp).2
            (whisperTxtFile cfg.outputDir fp) = none) ∧
    (code = 0 →
        (writeIfProduced fs (whisperTxtFile cfg.outputDir fp) art)
            (whisperTxtFile cfg.outputDir fp) = none →
        runWhisper cfg (.close code stderr art) fs ap fp
          = (.error "Whisper output file not found",
             writeIfProduced fs (whisperTxtFile cfg.outputDir fp) art)) ∧
    (code ≠ 0 →
        (runWhisper cfg (.close code stderr art) fs ap fp).1
          = .error ("Whisper process failed: " ++ stderr)) ∧
    (∀ msg, runWhisper cfg (.spawnError msg) fs ap fp
          = (.error ("Failed to start Whisper: " ++ msg), fs)) := by
  refine ⟨?_, ?_, ?_, fun msg => rfl⟩
  · intro t h0 ht
    subst h0
    simp only [runWhisper]
    rw [ht]
    exact ⟨rfl, cleanupProcessed_none _ _ _ _ (FS.erase_self _ _)⟩
  · intro h0 hn
    subst h0
    simp only [runWhisper]
    rw [hn]
    rfl
  · intro hne
    simp only [runWhisper]
    rw [show (code == 0) = false from beq_eq_false_iff_ne.mpr hne]
    rfl

theorem runWhisper_outcome_cases_witness :
    ((runWhisper cfgW (.close 0 "boom" (some " hi ")) (fun _ => none) "a.mp3" "a.mp3").1
        = .ok (trimWs " hi ") ∧
     (runWhisper cfgW (.close 0 "boom" (some " hi ")) (fun _ => none) "a.mp3" "a.mp3").2
        (whisperTxtFile cfgW.outputDir "a.mp3") = none) ∧
    (runWhisper cfgW (.close 1 "boom" none) (fun _ => none) "a.mp3" "a.mp3").1
        = .error ("Whisper process failed: " ++ "boom") :=
  ⟨(runWhisper_outcome_cases cfgW (fun _ => none) "a.mp3" "a.mp3" 0 "boom"
      (some " hi ")).1 " hi " rfl (by decide),
   (runWhisper_outcome_cases cfgW (fun _ => none) "a.mp3" "a.mp3" 1 "boom"
      none).2.2.1 (by decide)⟩

/-! Section: C5 -/

/-- Claim C5: preprocessing failure is never fatal — when ffmpeg cannot
be spawned, and when it closes without `exit code zero and output file
present`, `preprocessAudio` resolves with the original input path
unchanged; and for every outcome it resolves (never rejects). -/
theorem preprocess_failure_fallback (fs : FS) (p : String) :
    ((preprocessAudio .spawnError fs p).1 = Except.ok p) ∧
    (∀ code output,
        (code == 0 &&
          ((writeIfProduced fs (replaceExtWithProcessed p) output)
             (replaceExtWithProcessed p)).isSome) = false →
        (preprocessAudio (.close code output) fs p).1 = Except.ok p) ∧
    (∀ off, ∃ q, (preprocessAudio off fs p).1 = Except.ok q) := by
  refine ⟨rfl, ?_, ?_⟩
  · intro code output hcond
    simp only [preprocessAudio]
    rw [hcond]
    rfl
  · intro off
    cases off with
    | spawnError => exact ⟨p, rfl⟩
    | close code output =>
      simp only [preprocessAudio]
      split
      · exact ⟨replaceExtWithProcessed p, rfl⟩
      · exact ⟨p, rfl⟩

theorem preprocess_failure_fallback_witness :
    (preprocessAudio (.close 1 (some "x")) (fun _ => none) "a.mp3").1
      = Except.ok "a.mp3" :=
  (preprocess_failure_fallback (fun _ => none) "a.mp3").2.1 1 (some "x") (by decide)

/-! Section: C6 -/

/-- Claim C6 counterexample: the derived output path contains no unique
suffix — it is the stem plus the fixed string `_processed.wav` — so the
two distinct input paths `a.mp3` and `a.wav` derive the same output path
and concurrent preprocessing of these different files writes to the same
place. -/
theorem processed_path_collision :
    replaceExtWithProcessed "a.mp3" = replaceExtWithProcessed "a.wav" ∧
    "a.mp3" ≠ "a.wav" ∧
    replaceExtWithProcessed "a.mp3" = "a_processed.wav" := by
  refine ⟨by decide, by decide, by decide⟩

/-- Claim C6 as amended: the derivation is deterministic (stem +
`_processed.wav`, no timestamp or random token), so derived paths are
distinct only for inputs whose stems differ: for two distinct input paths
carrying the same extension, the derived output paths are distinct, while
inputs differing only in extension collide. -/
theorem processed_path_injective_same_ext (p q sp sq e : String)
    (hp : dotExtSplit? p = some (sp, e)) (hq : dotExtSplit? q = some (sq, e))
    (hne : p ≠ q) :
    replaceExtWithProcessed p ≠ replaceExtWithProcessed q := by
  have hpd := dotExtSplit_eq hp
  have hqd := dotExtSplit_eq hq
  unfold replaceExtWithProcessed
  rw [hp, hq]
  intro hcontra
  have hdata : sp.data ++ "_processed.wav".data = sq.data ++ "_processed.wav".data := by
    have := congrArg String.data hcontra
    rwa [String.data_append, String.data_append] at this
  have hsp : sp = sq := String.ext (List.append_cancel_right hdata)
  apply hne
  apply String.ext
  rw [hpd, hqd, hsp]

theorem processed_path_injective_same_ext_witness :
    replaceExtWithProcessed "a.mp3" ≠ replaceExtWithProcessed "b.mp3" :=
  processed_path_injective_same_ext "a.mp3" "b.mp3" "a" "b" "mp3"
    (by decide) (by decide) (by decide)

/-! Section: C7 -/

/-- Claim C7: cache operations never fail the in-flight request — a read
hitting an unparseable entry returns absent (`null`) instead of
propagating the parse error; a write whose persistence fails leaves the
cache unchanged; and the settled outcome of `transcribe` is identical
whether or not the cache write persists. -/
theorem cache_failures_nonfatal :
    (∀ (cache : Cache) (k : String), cache k = some CacheContent.unparseable →
        getCachedTranscription cache k = none) ∧
    (∀ (cache : Cache) (k : String) (r : TranscriptionResult),
        saveCachedTranscription false cache k r = cache) ∧
    (∀ (cfg : Config) (md5 : String → String) (ff : FfmpegOutcome)
        (w : WhisperOutcome) (now : Int) (b₁ b₂ : Bool) (st : ServiceState)
        (p u l : String),
        (transcribe cfg md5 ⟨ff, w, b₁, now⟩ st p u l).outcome
          = (transcribe cfg md5 ⟨ff, w, b₂, now⟩ st p u l).outcome) := by
  refine ⟨?_, ?_, ?_⟩
  · intro cache k hk
    unfold getCachedTranscription
    rw [hk]
  · intro cache k r
    rfl
  · intro cfg md5 ff w now b₁ b₂ st p u l
    unfold transcribe
    cases hfs : st.fs p with
    | none => rfl
    | some c =>
      simp only []
      cases hc : getCachedTranscription st.cache (md5 c) with
      | some cached => rfl
      | none =>
        simp only []
        rcases hpp : preprocessAudio ff st.fs p with ⟨pr, fs₁⟩
        cases pr with
        | error e => rfl
        | ok pp =>
          simp only []
          rcases hrw : runWhisper cfg w fs₁ p (finalPath p pp) with ⟨wr, fs₂⟩
          cases wr with
          | error e => rfl
          | ok tr => rfl

theorem cache_failures_nonfatal_witness :
    getCachedTranscription (fun _ => some CacheContent.unparseable) "abc123" = none :=
  cache_failures_nonfatal.1 (fun _ => some CacheContent.unparseable) "abc123" rfl

/-! Section: C8 -/

/-- Claim C8: cache round trip — `get` on the empty cache returns absent;
serialization followed by deserialization is the identity on
`TranscriptionResult` (all four fields); after `put(fingerprint, result)`
persists, `get(fingerprint)` returns exactly the stored result. -/
theorem cache_round_trip (k : String) (r : TranscriptionResult) (cache : Cache) :
    getCachedTranscription (fun _ => none) k = none ∧
    TranscriptionResult.fromJson? (TranscriptionResult.toJson r) = some r ∧
    getCachedTranscription (saveCachedTranscription true cache k r) k = some r :=
  ⟨rfl, fromJson_toJson r, getCached_save cache k r⟩

/-! Section: C9 -/

/-- Claim C9 counterexample: three different taxonomy kinds — missing
input file, recognizer non-zero exit, and failure to launch the
recognizer binary — all produce the same stable code
`TRANSCRIPTION_FAILED` in the HTTP error response (the controller's
single catch block), so the codes are not distinct per kind. -/
theorem error_codes_not_distinct :
    (transcribe cfgW md5W oFailW stW "missing.mp3" "u" "en").outcome
        = .error "Audio processing error: Audio file not found" ∧
    (transcribe cfgW md5W oFailW stW "a.mp3" "u" "en").outcome
        = .error ("Whisper process failed: " ++ "bad model") ∧
    (transcribe cfgW md5W oLaunchW stW "a.mp3" "u" "en").outcome
        = .error ("Failed to start Whisper: " ++ "ENOENT") ∧
    (transcribeAudio (some "a.mp3")
        (transcribe cfgW md5W oFailW stW "missing.mp3" "u" "en").outcome).code
        = some "TRANSCRIPTION_FAILED" ∧
    (transcribeAudio (some "a.mp3")
        (transcribe cfgW md5W oFailW stW "a.mp3" "u" "en").outcome).code
        = some "TRANSCRIPTION_FAILED" ∧
    (transcribeAudio (some "a.mp3")
        (transcribe cfgW md5W oLaunchW stW "a.mp3" "u" "en").outcome).code
        = some "TRANSCRIPTION_FAILED" := by
  refine ⟨by decide, by decide, by decide, by decide, by decide, by decide⟩

/-- Claim C9 as amended: every user-visible failure of the endpoint is a
structured response with a stable `code` field, but the code does not
distinguish the taxonomy kinds: every service rejection maps to status
500 with the single code `TRANSCRIPTION_FAILED` (the distinguishing text
appears only in `message`), while a missing upload maps to status 400
with code `NO_FILE`. -/
theorem error_code_uniform (f m : String) (x : Except String TranscriptionResult) :
    (transcribeAudio (some f) (.error m)).status = 500 ∧
    (transcribeAudio (some f) (.error m)).success = false ∧
    (transcribeAudio (some f) (.error m)).code = some "TRANSCRIPTION_FAILED" ∧
    (transcribeAudio (some f) (.error m)).message = some m ∧
    (transcribeAudio none x).status = 400 ∧
    (transcribeAudio none x).code = some "NO_FILE" :=
  ⟨rfl, rfl, rfl, rfl, rfl, rfl⟩

/-! Section: C10 -/

/-- Claim C10: noninterference of request parameters — the service's
`transcribe` ignores the `userId` and `language` arguments the controller
passes, so two calls differing only in them are identical runs; and
whenever the call resolves, the result's `model` and `language` fields
come from the static configuration (directly on a fresh run, and via the
stored result on a cache hit, given every cache entry was built from the
configuration). -/
theorem request_noninterference (cfg : Config) (md5 : String → String)
    (o : TranscribeOracle) (st : ServiceState) (p u₁ l₁ u₂ l₂ : String)
    (hcache : ∀ (k : String) (r : TranscriptionResult),
        getCachedTranscription st.cache k = some r →
        r.model = cfg.model ∧ r.language = cfg.language) :
    transcribe cfg md5 o st p u₁ l₁ = transcribe cfg md5 o st p u₂ l₂ ∧
    (∀ (r : TranscriptionResult) (st' : ServiceState) (n : Nat),
        transcribe cfg md5 o st p u₁ l₁ = ⟨.ok r, st', n⟩ →
        r.model = cfg.model ∧ r.language = cfg.language) := by
  refine ⟨rfl, ?_⟩
  intro r st' n h
  obtain ⟨c, hfs, hcase⟩ := transcribe_ok_cases cfg md5 o st p u₁ l₁ r st' n h
  rcases hcase with ⟨hhit, _, _⟩ | ⟨hm, hl, _, _, _⟩
  · exact hcache _ _ hhit
  · exact ⟨hm, hl⟩

theorem request_noninterference_witness :
    transcribe cfgW md5W oFirstW stW "a.mp3" "u1" "en"
      = transcribe cfgW md5W oFirstW stW "a.mp3" "u2" "fr" :=
  (request_noninterference cfgW md5W oFirstW stW "a.mp3" "u1" "en" "u2" "fr"
    (fun k r h => by simp [getCachedTranscription, stW] at h)).1

end KonnektaroAI
